import Mathlib

/-!
Verification of the stream-resolution helpers of the `comma` repository
(`comma/helpers.py`) against its specification.

The Python code is shallowly embedded: Python `str` values become lists of
characters, `bytes` become lists of byte values, streams become records of
buffer content plus a read position, and fallible code returns `Except`.
External collaborator capabilities (the filesystem, the HTTP client of
`requests`, `urllib.parse.urlparse`, `zipfile`, and the charset sniffer
`comma.extras.detect_encoding`) are modelled as an explicit environment
record, exactly as the specification treats them (interfaces only).
-/

namespace Comma

/-- Python `str` values, as lists of characters. -/
abbrev Str := List Char

/-- Python `bytes` values, as lists of byte values. -/
abbrev Bytes := List Nat

/-- comma.helpers.MAX_SAMPLE_CHUNKSIZE. -/
def MAX_SAMPLE_CHUNKSIZE : Nat := 10000

/-- comma.helpers.URI_SCHEME_LOCAL, the string "file". -/
def URI_SCHEME_LOCAL : Str := ['f', 'i', 'l', 'e']

/-- comma.helpers.URI_SCHEMES_ACCEPTED, the strings "http" and "https". -/
def URI_SCHEMES_ACCEPTED : List Str := [['h', 't', 't', 'p'], ['h', 't', 't', 'p', 's']]

/-- Prefix test on character lists, used to model Python substring scanning. -/
def begins : Str → Str → Bool
  | [], _ => true
  | _ :: _, [] => false
  | a :: as, b :: bs => (a == b) && begins as bs

/-- Auxiliary scanner for Python `str.count`: walks the string once; after a
match the next `pattern length - 1` characters are skipped, which yields the
non-overlapping count Python computes. -/
def pyCountSkip (sub : Str) : Str → Nat → Nat
  | [], _ => 0
  | _ :: t, skip + 1 => pyCountSkip sub t skip
  | c :: t, 0 =>
    if begins sub (c :: t) then 1 + pyCountSkip sub t (sub.length - 1)
    else pyCountSkip sub t 0

/-- Python `sample.count(sub)` for the nonempty patterns used in the source:
the number of non-overlapping occurrences of `sub`, scanning from the left. -/
def pyCount (sub s : Str) : Nat := pyCountSkip sub s 0

/-- Python substring membership `sub in s`. -/
def hasSub (sub : Str) : Str → Bool
  | [] => sub.isEmpty
  | c :: t => begins sub (c :: t) || hasSub sub t

/-- Python string comparison: lexicographic on character code points. -/
def strLt : Str → Str → Bool
  | [], [] => false
  | [], _ :: _ => true
  | _ :: _, [] => false
  | a :: as, b :: bs =>
    if a.toNat < b.toNat then true
    else if b.toNat < a.toNat then false
    else strLt as bs

/-- Python comparison of the `(count, length, terminator)` triples built in
`detect_line_terminator`: lexicographic tuple order, with the final string
component compared by code points. -/
def optLt (x y : Nat × Nat × Str) : Bool :=
  if x.1 < y.1 then true
  else if y.1 < x.1 then false
  else if x.2.1 < y.2.1 then true
  else if y.2.1 < x.2.1 then false
  else strLt x.2.2 y.2.2

/-- One insertion step of a stable descending insertion sort: `x` is placed
before the first element it is not smaller than, so elements that compare
equal keep their original relative order, as Python's stable
`sorted(..., reverse=True)` does. -/
def insertDesc (x : Nat × Nat × Str) : List (Nat × Nat × Str) → List (Nat × Nat × Str)
  | [] => [x]
  | y :: ys => if optLt x y then y :: insertDesc x ys else x :: y :: ys

/-- Python `sorted(options, reverse=True)` on the ranked-option triples:
stable descending sort (insertion sort). -/
def sortDesc : List (Nat × Nat × Str) → List (Nat × Nat × Str)
  | [] => []
  | x :: xs => insertDesc x (sortDesc xs)

/-- A Python `typing.AnyStr` value: either a `str` or a `bytes` object. -/
inductive PyAnyStr
  | str (s : Str)
  | bytes (b : Bytes)
deriving DecidableEq

/-- Exceptions the embedded code can raise. -/
inductive PyError
  /-- TypeError, e.g. `bytes.count` called with a `str` pattern. -/
  | typeError
  /-- AttributeError, e.g. an attribute access on an object lacking it. -/
  | attributeError
  /-- ValueError for a detected ZIP container with no members. -/
  | valueErrorZipEmpty
  /-- ValueError for an ambiguous ZIP container; the message is built with
  `format(names)` and so carries every member name. -/
  | valueErrorZipAmbiguous (names : List Str)
  /-- ValueError for a slice with step zero. -/
  | valueErrorSliceStep
deriving DecidableEq

/-- comma.helpers.LINE_TERMINATORS. -/
def LINE_TERMINATORS : List Str := [['\r', '\n'], ['\r'], ['\n']]

/-- comma.helpers.LINE_TERMINATOR_DEFAULT. -/
def LINE_TERMINATOR_DEFAULT : Str := ['\n']

/-- comma.helpers.detect_line_terminator. A `None` sample returns the
default. A `bytes` sample passes the `hasattr(sample, "count")` guard but
then reaches `map(sample.count, LINE_TERMINATORS)` whose patterns are `str`
objects, and `bytes.count(str)` raises TypeError; that fault is the error
result. A `str` sample is ranked exactly as in the source: the three
`(count, length, terminator)` triples are sorted descending and the head is
taken; a zero best count returns the default. -/
def detect_line_terminator (sample : Option PyAnyStr) (default : Option Str) :
    Except PyError Str :=
  let d := default.getD LINE_TERMINATOR_DEFAULT
  match sample with
  | none => .ok d
  | some (.bytes _) => .error .typeError
  | some (.str s) =>
    let ranked_options :=
      sortDesc (LINE_TERMINATORS.map (fun t => (pyCount t s, t.length, t)))
    match ranked_options with
    | [] => .ok d
    | best :: _ => if best.1 = 0 then .ok d else .ok best.2.2

/-- A Python `slice(start, stop, step)` object; `none` components are
Python `None`. -/
structure PySlice where
  start : Option Int
  stop : Option Int
  step : Option Int
deriving DecidableEq

/-- Elements selected by a normalized slice: the indices
`start, start + step, ...` strictly before `stop` in the direction of
`step`. The count formula is the ceiling division CPython uses. -/
def sliceElems {α : Type} (seq : List α) (start stop step : Int) : List α :=
  let count : Nat :=
    if 0 < step then ((stop - start + step - 1) / step).toNat
    else ((start - stop - step - 1) / (-step)).toNat
  (List.range count).filterMap (fun k => seq[(start + step * (k : Int)).toNat]?)

/-- CPython `list.__getitem__(slice)`: slice-index normalization (the
`slice.indices` clamping rules) followed by element selection; a step of
zero raises ValueError. -/
def pyGetitem {α : Type} (seq : List α) (sl : PySlice) : Except PyError (List α) :=
  let len : Int := (seq.length : Int)
  let step := sl.step.getD 1
  if step = 0 then .error .valueErrorSliceStep
  else
    let lower : Int := if 0 < step then 0 else -1
    let upper : Int := if 0 < step then len else len - 1
    let start :=
      match sl.start with
      | none => if 0 < step then lower else upper
      | some v => if v < 0 then max (v + len) lower else min v upper
    let stop :=
      match sl.stop with
      | none => if 0 < step then upper else lower
      | some v => if v < 0 then max (v + len) lower else min v upper
    .ok (sliceElems seq start stop step)

/-- comma.helpers.multislice_sequence: a `None` slice list leaves the
sequence unchanged; otherwise each slice is applied to the result of the
previous one, left to right. -/
def multislice_sequence {α : Type} (sequence : List α)
    (slice_list : Option (List PySlice)) : Except PyError (List α) :=
  match slice_list with
  | none => .ok sequence
  | some l => l.foldlM (fun acc sl => pyGetitem acc sl) sequence

/-- Result of `urllib.parse.urlparse`: the components the source inspects. -/
structure UrlParts where
  scheme : Str
  netloc : Str
  path : Str

/-- A `requests` response, as the source observes it: success flag, body
bytes, and the declared encoding (possibly absent). -/
structure HttpResponse where
  ok : Bool
  content : Bytes
  encoding : Option Str

/-- External collaborator capabilities consumed by the helpers, as the
specification lists them: URI parsing (`urllib.parse.urlparse`), the
filesystem (`os.path.exists`, `os.path.expanduser`, `os.path.abspath`,
reading a file opened in binary mode), the HTTP client (`requests.head`
where `none` models a raised InvalidSchema or ConnectionError, and
`requests.get`), the archive reader (`zipfile.is_zipfile` and the member
names with their extracted bytes), and the charset sniffer
(`comma.extras.detect_encoding`, which always returns a usable name). -/
structure Env where
  urlparse : Str → UrlParts
  pathExists : Str → Bool
  expanduser : Str → Str
  abspath : Str → Str
  fileBytes : Str → Bytes
  headOk : Str → Option Bool
  httpGet : Str → HttpResponse
  is_zipfile : Bytes → Bool
  zipMembers : Bytes → List (Str × Bytes)
  detect_encoding : Bytes → Str

/-- comma.helpers.is_local: an empty location is rejected; the location is
parsed as a URI, and when the scheme is "file" or empty a candidate path is
rebuilt from netloc + path and accepted as given or after home expansion
(the later check overwrites the earlier); afterwards the raw location
itself is tried as given, or (only if that fails) after home expansion,
overwriting the URI-derived candidate; an accepted path is canonicalized
with abspath. -/
def is_local (env : Env) (location : Str) : Option Str :=
  if location = [] then none
  else
    let p := env.urlparse location
    let path1 : Option Str :=
      if p.scheme = URI_SCHEME_LOCAL ∨ p.scheme = [] then
        let parsed_path := if p.netloc ≠ [] then p.netloc ++ p.path else p.path
        let q1 : Option Str := if env.pathExists parsed_path then some parsed_path else none
        if env.pathExists (env.expanduser parsed_path) then some (env.expanduser parsed_path)
        else q1
      else none
    let path2 : Option Str :=
      if env.pathExists location then some location
      else if env.pathExists (env.expanduser location) then some (env.expanduser location)
      else path1
    path2.map env.abspath

/-- comma.helpers.is_url (with the `requests` module importable): an empty
location, an empty scheme or netloc, or the "file" scheme are rejected;
with `no_request` the accepted schemes are checked syntactically; otherwise
a HEAD probe decides, where a raised InvalidSchema or ConnectionError
(modelled by `none`) yields `false`. -/
def is_url (env : Env) (location : Str) (no_request : Bool) : Bool :=
  if location = [] then false
  else
    let p := env.urlparse location
    if p.scheme = [] ∨ p.netloc = [] then false
    else if p.scheme = URI_SCHEME_LOCAL then false
    else if no_request then decide (p.scheme ∈ URI_SCHEMES_ACCEPTED)
    else
      match env.headOk location with
      | none => false
      | some ok => ok

/-- A source descriptor accepted by `open_stream`: literal text, raw bytes,
or an already-open (text or byte) stream with its buffer content, read
position, and seekability. Python `None` sources are the `none` of the
`Option Source` parameter of `open_stream`. -/
inductive Source
  | str (s : Str)
  | bytes (b : Bytes)
  | textStream (content : Str) (pos : Nat) (seekable : Bool)
  | byteStream (content : Bytes) (pos : Nat) (seekable : Bool)
deriving DecidableEq

/-- A stream value flowing through the body of `open_stream`. -/
inductive PyStream
  | text (content : Str) (pos : Nat) (seekable : Bool)
  | bytes (content : Bytes) (pos : Nat) (seekable : Bool)
deriving DecidableEq

/-- The stream `open_stream` hands back to the caller: either a text
buffer (`io.StringIO`, or a text stream passed in), or an
`io.TextIOWrapper` with the chosen encoding around a byte buffer. In both
cases `pos` is the read position at which the caller receives the stream
(for the wrapper, the position of the underlying byte buffer). -/
inductive Resolved
  | text (content : Str) (pos : Nat)
  | wrapped (encoding : Str) (content : Bytes) (pos : Nat)
deriving DecidableEq

/-- Translation `io.StringIO` applies to text written into it (the
`initial_value` included): with newline "" or "\n" nothing is translated,
with any other legal newline every '\n' character written is replaced by
that newline string. -/
def translateNewlines (newline : Str) : Str → Str
  | [] => []
  | c :: t => (if c = '\n' then newline else [c]) ++ translateNewlines newline t

/-- Buffer content of `io.StringIO(initial_value=s, newline=newline)`. -/
def stringIOContent (newline : Str) (s : Str) : Str :=
  if newline = ['\n'] ∨ newline = [] then s else translateNewlines newline s

/-- Outcome of the string-dispatch prefix of `open_stream` (lines handling
`type(source) is str` and `type(source) is bytes`): either an early return
or a stream to continue with, together with the current `encoding`
variable. -/
inductive StringStage
  | done (r : Except PyError (Option Resolved))
  | stream (st : PyStream) (encoding : Option Str)

/-- The string and bytes dispatch of `open_stream`: a multi-line literal is
wrapped immediately in `io.StringIO` with the newline convention chosen by
substring tests; otherwise the string is tried as a local path (opened in
binary mode), then as a URL (fetched with `requests.get`; a non-success
response is "not resolved"; an adopted declared encoding makes the code
call `io.TextIOWrapper(response.content, ...)` on a raw bytes object,
which raises AttributeError since bytes have no `readable` attribute;
with no known encoding the body is kept as raw bytes); a string that is
neither is "not resolved". A bytes source becomes an `io.BytesIO`. -/
def stringStage (env : Env) (src : Source) (encoding : Option Str) (no_request : Bool) :
    StringStage :=
  match src with
  | .str s =>
    if hasSub ['\n'] s then
      let newline : Str := if hasSub ['\r', '\n'] s then ['\r', '\n'] else ['\n']
      .done (.ok (some (.text (stringIOContent newline s) 0)))
    else
      match is_local env s with
      | some p => .stream (.bytes (env.fileBytes p) 0 true) encoding
      | none =>
        if !no_request && is_url env s false then
          let resp := env.httpGet s
          if !resp.ok then .done (.ok none)
          else
            match encoding <|> resp.encoding with
            | some _ => .done (.error .attributeError)
            | none => .stream (.bytes resp.content 0 true) none
        else .done (.ok none)
  | .bytes b => .stream (.bytes b 0 true) encoding
  | .textStream c pos sk => .stream (.text c pos sk) encoding
  | .byteStream c pos sk => .stream (.bytes c pos sk) encoding

/-- Last index of a character in a string, -1 when absent (Python
`str.rfind`). -/
def rfindIdx (c : Char) (s : Str) : Int :=
  (List.range s.length).foldl (fun acc i => if s.get? i = some c then (i : Int) else acc) (-1)

/-- The extension `os.path.splitext(p)[1]` for POSIX paths: the suffix from
the last dot, provided that dot lies after the last separator and the
basename has some non-dot character before it (leading dots of the
basename never start an extension). -/
def splitextExt (p : Str) : Str :=
  let sepIndex := rfindIdx '/' p
  let dotIndex := rfindIdx '.' p
  if sepIndex < dotIndex then
    if (List.range p.length).any
        (fun j => decide (sepIndex < (j : Int) ∧ (j : Int) < dotIndex ∧ p.get? j ≠ some '.')) then
      p.drop dotIndex.toNat
    else []
  else []

/-- The test of the archive loop:
`os.path.splitext(name)[1].lower() == ".csv"`. -/
def isCsvName (name : Str) : Bool :=
  decide ((splitextExt name).map Char.toLower = ['.', 'c', 's', 'v'])

/-- `ZipFile.read(name)`: the bytes of the first member carrying the
name. -/
def zipRead (members : List (Str × Bytes)) (nm : Str) : Bytes :=
  ((members.find? (fun m => decide (m.1 = nm))).map Prod.snd).getD []

/-- The archive-unwrap step of `open_stream`: a text stream carries no ZIP
magic and passes through; a byte stream detected as a ZIP container is
enumerated, counting members and members with a CSV extension and keeping
the last CSV name, then: a single member is extracted unconditionally;
more than one member with exactly one CSV member extracts that one; zero
members raise ValueError; anything else raises the ambiguity ValueError
naming all members. -/
def zipStage (env : Env) (st : PyStream) : Except PyError PyStream :=
  match st with
  | .text c pos sk => .ok (.text c pos sk)
  | .bytes c pos sk =>
    if env.is_zipfile c then
      let members := env.zipMembers c
      let names := members.map Prod.fst
      let count_total := names.length
      let count_csv := (names.filter isCsvName).length
      let csv_filename := names.foldl (fun acc nm => if isCsvName nm then some nm else acc)
        (none : Option Str)
      if count_total = 1 then
        .ok (.bytes (zipRead members (names.headD [])) 0 true)
      else if 1 < count_total ∧ count_csv = 1 then
        .ok (.bytes (zipRead members (csv_filename.getD [])) 0 true)
      else if count_total = 0 then .error .valueErrorZipEmpty
      else .error (.valueErrorZipAmbiguous names)
    else .ok (.bytes c pos sk)

/-- The stream tail of `open_stream`: a non-seekable stream is fully read
and re-buffered in memory; the archive unwrapper runs and its faults
propagate; then the code seeks to 0 and reads a sample of at most
MAX_SAMPLE_CHUNKSIZE units, leaving the read position at the sample end;
a byte sample triggers encoding detection (unless an encoding is pinned)
and the stream is wrapped in `io.TextIOWrapper` at its current position;
the best-effort name attachment swallows its AttributeError and changes
nothing observable; the stream is returned without any further seek. -/
def streamStage (env : Env) (st0 : PyStream) (encoding : Option Str) :
    Except PyError (Option Resolved) :=
  let st1 :=
    match st0 with
    | .text c pos sk => if sk then PyStream.text c pos sk else PyStream.text (c.drop pos) 0 true
    | .bytes c pos sk => if sk then PyStream.bytes c pos sk else PyStream.bytes (c.drop pos) 0 true
  match zipStage env st1 with
  | .error e => .error e
  | .ok (.text c _ _) => .ok (some (.text c (min MAX_SAMPLE_CHUNKSIZE c.length)))
  | .ok (.bytes c _ _) =>
    let sample := c.take MAX_SAMPLE_CHUNKSIZE
    let enc :=
      match encoding with
      | some e => e
      | none => env.detect_encoding sample
    .ok (some (.wrapped enc c (min MAX_SAMPLE_CHUNKSIZE c.length)))

/-- comma.helpers.open_stream: a `None` source is "not resolved"; a string
or bytes source is dispatched by `stringStage`; every surviving stream goes
through seekability buffering, archive unwrapping, sampling and decoding in
`streamStage`. -/
def open_stream (env : Env) (source : Option Source) (encoding : Option Str)
    (no_request : Bool) : Except PyError (Option Resolved) :=
  match source with
  | none => .ok none
  | some src =>
    match stringStage env src encoding no_request with
    | .done r => r
    | .stream st enc => streamStage env st enc

/-- The encoding name "utf-8". -/
def utf8Name : Str := ['u', 't', 'f', '-', '8']

/-- An environment in which nothing exists: the URI parser returns empty
components, no path exists, no HEAD probe succeeds, no GET succeeds, and
no byte string is a ZIP container. -/
def envTrivial : Env where
  urlparse := fun _ => ⟨[], [], []⟩
  pathExists := fun _ => false
  expanduser := fun s => s
  abspath := fun s => s
  fileBytes := fun _ => []
  headOk := fun _ => none
  httpGet := fun _ => ⟨false, [], none⟩
  is_zipfile := fun _ => false
  zipMembers := fun _ => []
  detect_encoding := fun _ => utf8Name

/-- A sample made of N occurrences of "\r\n" and nothing else. -/
def crlfRep : Nat → Str
  | 0 => []
  | n + 1 => '\r' :: '\n' :: crlfRep n

lemma pyCount_crlfRep_crlf (n : Nat) : pyCount ['\r', '\n'] (crlfRep n) = n := by
  induction n with
  | zero => rfl
  | succ n ih =>
    show 1 + pyCount ['\r', '\n'] (crlfRep n) = n + 1
    rw [ih]; omega

lemma pyCount_crlfRep_cr (n : Nat) : pyCount ['\r'] (crlfRep n) = n := by
  induction n with
  | zero => rfl
  | succ n ih =>
    show 1 + pyCount ['\r'] (crlfRep n) = n + 1
    rw [ih]; omega

lemma pyCount_crlfRep_lf (n : Nat) : pyCount ['\n'] (crlfRep n) = n := by
  induction n with
  | zero => rfl
  | succ n ih =>
    show 1 + pyCount ['\n'] (crlfRep n) = n + 1
    rw [ih]; omega

lemma strLt_cr_lf : strLt ['\r'] ['\n'] = false := by decide

lemma optLt_cr_lf (k : Nat) : optLt (k, 1, ['\r']) (k, 1, ['\n']) = false := by
  simp [optLt, strLt_cr_lf]

lemma optLt_crlf_cr (n : Nat) : optLt (n, 2, ['\r', '\n']) (n, 1, ['\r']) = false := by
  simp [optLt]

/-- C3: a sample holding N > 0 occurrences of "\r\n" and no other
characters makes detect_line_terminator return "\r\n" rather than "\n" or
"\r": all three candidate counts equal N, and the descending sort on
(count, pattern length) puts the 2-character terminator first. -/
theorem detect_line_terminator_crlf_only (n : Nat) (h : 0 < n) :
    detect_line_terminator (some (.str (crlfRep n))) none = .ok ['\r', '\n'] := by
  have hne : n ≠ 0 := Nat.pos_iff_ne_zero.mp h
  simp only [detect_line_terminator, LINE_TERMINATORS, List.map_cons, List.map_nil,
    pyCount_crlfRep_crlf, pyCount_crlfRep_cr, pyCount_crlfRep_lf,
    List.length_cons, List.length_nil]
  simp [sortDesc, insertDesc, optLt_cr_lf, optLt_crlf_cr, hne]

/-- Witness for C3 at N = 3. -/
theorem detect_line_terminator_crlf_only_witness :
    0 < 3 ∧ detect_line_terminator (some (.str (crlfRep 3))) none = .ok ['\r', '\n'] :=
  ⟨by decide, detect_line_terminator_crlf_only 3 (by decide)⟩

/-- C4: every bytes-typed sample makes detect_line_terminator raise
TypeError, because the patterns in LINE_TERMINATORS are str objects and
`bytes.count` rejects a str argument; the claimed "\n" result for
\n-only byte samples never happens. -/
theorem detect_line_terminator_bytes_raises (b : Bytes) (d : Option Str) :
    detect_line_terminator (some (.bytes b)) d = .error .typeError := rfl

/-- C10: a sample with no "\r\n" occurrence and equal positive counts of
bare "\r" and bare "\n" makes detect_line_terminator return "\r": the
(count, length) tie between the two 1-character candidates is broken by
the reverse lexicographic comparison of the terminator strings, and "\r"
sorts above "\n". -/
theorem detect_line_terminator_cr_over_lf (s : Str) (k : Nat)
    (h1 : pyCount ['\r', '\n'] s = 0)
    (h2 : pyCount ['\r'] s = k)
    (h3 : pyCount ['\n'] s = k)
    (hk : 0 < k) :
    detect_line_terminator (some (.str s)) none = .ok ['\r'] := by
  have hne : k ≠ 0 := Nat.pos_iff_ne_zero.mp hk
  simp only [detect_line_terminator, LINE_TERMINATORS, List.map_cons, List.map_nil,
    h1, h2, h3, List.length_cons, List.length_nil]
  simp [sortDesc, insertDesc, optLt_cr_lf, optLt, strLt_cr_lf, hk, hne]

/-- Witness for C10 at the sample "a\rb\n". -/
theorem detect_line_terminator_cr_over_lf_witness :
    pyCount ['\r', '\n'] ['a', '\r', 'b', '\n'] = 0
    ∧ pyCount ['\r'] ['a', '\r', 'b', '\n'] = 1
    ∧ pyCount ['\n'] ['a', '\r', 'b', '\n'] = 1
    ∧ 0 < 1
    ∧ detect_line_terminator (some (.str ['a', '\r', 'b', '\n'])) none = .ok ['\r'] :=
  ⟨by decide, by decide, by decide, by decide,
    detect_line_terminator_cr_over_lf ['a', '\r', 'b', '\n'] 1
      (by decide) (by decide) (by decide) (by decide)⟩

/-- C1: the final-position invariant fails. Resolving the two-byte source
b"ab" with a pinned encoding succeeds, but the code seeks to 0, consumes
the bounded sample, and returns without seeking back, so the stream is
handed to the caller with its underlying read position at 2 (the end of
the data), not at offset 0. -/
theorem open_stream_final_position_not_restored :
    open_stream envTrivial (some (.bytes [97, 98])) (some utf8Name) false
      = .ok (some (.wrapped utf8Name [97, 98] 2)) ∧ (2 : Nat) ≠ 0 :=
  ⟨rfl, by decide⟩

/-- C2: round-tripping the literal "a\r\nb" fails. The multi-line branch
builds io.StringIO(initial_value=source, newline="\r\n"), and StringIO
translates every '\n' written (the initial value included) into "\r\n",
so the stream the caller reads back holds "a\r\r\nb": a '\r' has been
inserted and the original text is not preserved. -/
theorem open_stream_crlf_not_preserved :
    open_stream envTrivial (some (.str ['a', '\r', '\n', 'b'])) none false
      = .ok (some (.text ['a', '\r', '\r', '\n', 'b'] 0))
    ∧ (['a', '\r', '\r', '\n', 'b'] : Str) ≠ ['a', '\r', '\n', 'b'] :=
  ⟨rfl, by decide⟩

/-- An environment in which "http://x/a" parses as an http URL with host
"x", the HEAD probe succeeds, and the GET returns a successful response
with body bytes "a,b" and declared encoding "utf-8". -/
def envHttp : Env where
  urlparse := fun _ => ⟨['h', 't', 't', 'p'], ['x'], ['/', 'a']⟩
  pathExists := fun _ => false
  expanduser := fun s => s
  abspath := fun s => s
  fileBytes := fun _ => []
  headOk := fun _ => some true
  httpGet := fun _ => ⟨true, [97, 44, 98], some utf8Name⟩
  is_zipfile := fun _ => false
  zipMembers := fun _ => []
  detect_encoding := fun _ => utf8Name

/-- The URL string "http://x/a". -/
def httpUrlStr : Str := ['h', 't', 't', 'p', ':', '/', '/', 'x', '/', 'a']

/-- C6: resolving a URL whose successful response declares an encoding
does not complete. After adopting the declared encoding the code calls
io.TextIOWrapper(response.content, encoding=...) on the raw bytes object
(bytes have no `readable` attribute), so resolution raises AttributeError
instead of returning the decoded stream. -/
theorem open_stream_url_declared_encoding_raises :
    open_stream envHttp (some (.str httpUrlStr)) none false = .error .attributeError := rfl

/-- C5: a detected archive with more than one member of which zero or more
than one carry a case-insensitive ".csv" extension makes open_stream raise
the ambiguity ValueError, and the names carried by the fault are exactly
the member names, so every member name appears in the detail. -/
theorem open_stream_zip_ambiguous (env : Env) (c : Bytes) (enc : Option Str) (nr : Bool)
    (hz : env.is_zipfile c = true)
    (hm : 1 < (env.zipMembers c).length)
    (hcsv : (((env.zipMembers c).map Prod.fst).filter isCsvName).length ≠ 1) :
    open_stream env (some (.bytes c)) enc nr
      = .error (.valueErrorZipAmbiguous ((env.zipMembers c).map Prod.fst))
    ∧ ∀ m ∈ env.zipMembers c, m.1 ∈ (env.zipMembers c).map Prod.fst := by
  constructor
  · have hne1 : (env.zipMembers c).length ≠ 1 := by omega
    have hnil : env.zipMembers c ≠ [] := by
      intro h
      rw [h] at hm
      simp at hm
    simp only [open_stream, stringStage, streamStage, zipStage, hz, if_true]
    simp [hne1, hnil, hcsv]
  · intro m hmem
    exact List.mem_map_of_mem Prod.fst hmem

/-- An environment whose archive reader reports every byte string as a ZIP
container with the two members "a.txt" and "b.txt". -/
def envZipAmb : Env where
  urlparse := fun _ => ⟨[], [], []⟩
  pathExists := fun _ => false
  expanduser := fun s => s
  abspath := fun s => s
  fileBytes := fun _ => []
  headOk := fun _ => none
  httpGet := fun _ => ⟨false, [], none⟩
  is_zipfile := fun _ => true
  zipMembers := fun _ => [(['a', '.', 't', 'x', 't'], [1]), (['b', '.', 't', 'x', 't'], [2])]
  detect_encoding := fun _ => utf8Name

/-- Witness for C5 on a two-member archive with no CSV member. -/
theorem open_stream_zip_ambiguous_witness :
    envZipAmb.is_zipfile [] = true
    ∧ 1 < (envZipAmb.zipMembers []).length
    ∧ (((envZipAmb.zipMembers []).map Prod.fst).filter isCsvName).length ≠ 1
    ∧ (open_stream envZipAmb (some (.bytes [])) none false
        = .error (.valueErrorZipAmbiguous ((envZipAmb.zipMembers []).map Prod.fst))
      ∧ ∀ m ∈ envZipAmb.zipMembers [], m.1 ∈ (envZipAmb.zipMembers []).map Prod.fst) :=
  ⟨rfl, by decide, by decide,
    open_stream_zip_ambiguous envZipAmb [] none false rfl (by decide) (by decide)⟩

/-- C7: a detected archive with exactly one member is extracted
unconditionally: whatever the member's name, resolution succeeds and the
stream handed back wraps exactly that member's bytes. -/
theorem open_stream_zip_single (env : Env) (c : Bytes) (nm : Str) (b : Bytes)
    (enc : Option Str) (nr : Bool)
    (hz : env.is_zipfile c = true)
    (hm : env.zipMembers c = [(nm, b)]) :
    ∃ e p, open_stream env (some (.bytes c)) enc nr = .ok (some (.wrapped e b p)) := by
  cases enc with
  | none =>
    exact ⟨env.detect_encoding (b.take MAX_SAMPLE_CHUNKSIZE), min MAX_SAMPLE_CHUNKSIZE b.length,
      by simp [open_stream, stringStage, streamStage, zipStage, zipRead, hz, hm]⟩
  | some e =>
    exact ⟨e, min MAX_SAMPLE_CHUNKSIZE b.length,
      by simp [open_stream, stringStage, streamStage, zipStage, zipRead, hz, hm]⟩

/-- An environment whose archive reader reports every byte string as a ZIP
container with the single non-CSV member "data.bin". -/
def envZipOne : Env where
  urlparse := fun _ => ⟨[], [], []⟩
  pathExists := fun _ => false
  expanduser := fun s => s
  abspath := fun s => s
  fileBytes := fun _ => []
  headOk := fun _ => none
  httpGet := fun _ => ⟨false, [], none⟩
  is_zipfile := fun _ => true
  zipMembers := fun _ => [(['d', 'a', 't', 'a', '.', 'b', 'i', 'n'], [1, 2, 3])]
  detect_encoding := fun _ => utf8Name

/-- Witness for C7 on a single-member archive whose member is not CSV. -/
theorem open_stream_zip_single_witness :
    envZipOne.is_zipfile [] = true
    ∧ envZipOne.zipMembers [] = [(['d', 'a', 't', 'a', '.', 'b', 'i', 'n'], [1, 2, 3])]
    ∧ ∃ e p, open_stream envZipOne (some (.bytes [])) none false
        = .ok (some (.wrapped e [1, 2, 3] p)) :=
  ⟨rfl, rfl,
    open_stream_zip_single envZipOne [] ['d', 'a', 't', 'a', '.', 'b', 'i', 'n'] [1, 2, 3]
      none false rfl rfl⟩

/-- C8: a newline-free string that is neither an existing path (is_local
rejects it) nor a fetchable URL (is_url rejects it) resolves to the
not-resolved sentinel, never a fault; and whenever nothing exists on the
filesystem — in particular for a path to a file that does not exist —
is_local indeed rejects the string. -/
theorem open_stream_not_resolved (env : Env) (s : Str) (enc : Option Str) (nr : Bool)
    (hnl : hasSub ['\n'] s = false)
    (hloc : is_local env s = none)
    (hurl : is_url env s false = false) :
    open_stream env (some (.str s)) enc nr = .ok none
    ∧ ((∀ q, env.pathExists q = false) → is_local env s = none) := by
  constructor
  · simp [open_stream, stringStage, hnl, hloc, hurl]
  · intro hex
    simp [is_local, hex]

/-- The string "nofile.csv". -/
def noFileStr : Str := ['n', 'o', 'f', 'i', 'l', 'e', '.', 'c', 's', 'v']

/-- Witness for C8 on the path string "nofile.csv" in the environment
where no file exists and no URL is fetchable. -/
theorem open_stream_not_resolved_witness :
    hasSub ['\n'] noFileStr = false
    ∧ is_local envTrivial noFileStr = none
    ∧ is_url envTrivial noFileStr false = false
    ∧ (open_stream envTrivial (some (.str noFileStr)) none false = .ok none
       ∧ ((∀ q, envTrivial.pathExists q = false) → is_local envTrivial noFileStr = none)) :=
  ⟨rfl, rfl, rfl, open_stream_not_resolved envTrivial noFileStr none false rfl rfl rfl⟩

/-- C9: multislice_sequence with an absent or empty slice list is the
identity; a non-empty slice list applies its head to the sequence and the
rest to that result, left to right; and applying [slice(0,3), slice(1,2)]
to [0,1,2,3,4,5] yields [1]. -/
theorem multislice_sequence_spec :
    (∀ (α : Type) (seq : List α),
        multislice_sequence seq none = .ok seq
        ∧ multislice_sequence seq (some []) = .ok seq)
    ∧ (∀ (α : Type) (seq : List α) (sl : PySlice) (rest : List PySlice),
        multislice_sequence seq (some (sl :: rest))
          = Except.bind (pyGetitem seq sl) (fun t => multislice_sequence t (some rest)))
    ∧ multislice_sequence [0, 1, 2, 3, 4, 5]
        (some [PySlice.mk (some 0) (some 3) none, PySlice.mk (some 1) (some 2) none])
      = .ok [1] := by
  refine ⟨fun α seq => ⟨rfl, rfl⟩, fun α seq sl rest => rfl, rfl⟩

end Comma
